import Mathlib

/-!
Shallow embedding of the gameplay logic of the ThePathOfOsu repository
(Source/ThePathOfOsu/PlayerCharacter.cpp and Source/ThePathOfOsu/Transporter.h),
together with theorems settling the frozen claims about it.

Engine-owned facilities (animation montage playback, collision traces, widgets,
timers, the character-movement component) are modelled as explicit inputs or as
fields of the embedded state; the quantities the engine supplies (trace results,
random indices, parent-class capability checks such as CanMove/CanDodgeRoll)
are parameters of the embedded functions.
-/

namespace ThePathOfOsu

/-- Three-component vector (engine FVector), with rational coordinates. -/
structure Vec3 where
  x : ℚ
  y : ℚ
  z : ℚ
deriving DecidableEq

/-- Engine constant MAX_int32. -/
def MAX_int32 : Int := 2 ^ 31 - 1

/-- FMath::Clamp as implemented by the engine:
`X < Min ? Min : (X < Max ? X : Max)`. -/
def FMathClamp (x lo hi : Int) : Int :=
  if x < lo then lo else if x < hi then x else hi

/-! ## Inventory (PlayerCharacter.cpp, lines 778-893)

`InventoryData` is a `TMap<UItem*, int32>`.  A `UItem*` is embedded as
`Option UItem` (`none` is the null pointer); the map is embedded as an
association list whose keys are the (non-null) items, looked up by the map
operations in entry order.  `UItem` carries the only field the code reads,
`MaxCount`, plus an identity tag standing for the object's address. -/

/-- An item asset: an identity (its address in the engine) and its MaxCount. -/
structure UItem where
  id : Nat
  MaxCount : Int
deriving DecidableEq

/-- The inventory dictionary: item/count entries. -/
abbrev Inventory := List (UItem × Int)

/-- TMap.Find: the count stored for a key, if the key is present. -/
def findCount : Inventory → UItem → Option Int
  | [], _ => none
  | (k, v) :: rest, it => if k = it then some v else findCount rest it

/-- TMap.Contains. -/
def containsItem (inv : Inventory) (it : UItem) : Bool :=
  inv.any (fun p => p.1 = it)

/-- TMap operator[] assignment on an existing key: replace the stored count. -/
def setCount : Inventory → UItem → Int → Inventory
  | [], _, _ => []
  | (k, v) :: rest, it, c => if k = it then (k, c) :: rest else (k, v) :: setCount rest it c

/-- TMap.Remove: delete the entry for a key. -/
def eraseItem : Inventory → UItem → Inventory
  | [], _ => []
  | (k, v) :: rest, it => if k = it then rest else (k, v) :: eraseItem rest it

/-- APlayerCharacter::GetInventoryItemCount (lines 778-785): the stored count
when `InventoryData.Find` succeeds, otherwise 0.  The C++ method is `const`, so
it is embedded as a pure function of the inventory: it cannot modify it.  A
null item pointer is a key the map (whose stored keys are all non-null) never
contains, so its lookup yields 0. -/
def GetInventoryItemCount (inv : Inventory) (item : Option UItem) : Int :=
  match item with
  | none => 0
  | some it =>
    match findCount inv it with
    | some c => c
    | none => 0

/-- APlayerCharacter::HasItem (lines 787-790): `InventoryData.Contains(Item)`.
A null pointer is never a stored key. -/
def HasItem (inv : Inventory) (item : Option UItem) : Bool :=
  match item with
  | none => false
  | some it => containsItem inv it

/-- Result of AddInventoryItem: the returned flag, the updated inventory, and
whether `OnPlayerAddItem` was broadcast. -/
structure AddResult where
  ok : Bool
  inv : Inventory
  broadcastAddItem : Bool
deriving DecidableEq

/-- APlayerCharacter::AddInventoryItem (lines 792-827). -/
def AddInventoryItem (inv : Inventory) (newItem : Option UItem) (itemCount : Int) : AddResult :=
  match newItem with
  | none => ⟨false, inv, false⟩
  | some it =>
    if itemCount ≤ 0 then ⟨false, inv, false⟩
    else
      let maxCount := if it.MaxCount ≤ 0 then MAX_int32 else it.MaxCount
      if containsItem inv it then
        let oldItemCount := (findCount inv it).getD 0
        ⟨true, setCount inv it (FMathClamp (oldItemCount + itemCount) 1 maxCount), false⟩
      else
        ⟨true, inv ++ [(it, itemCount)], true⟩

/-- APlayerCharacter::RemoveInventoryItem (lines 829-870).  Returns the flag
and the updated inventory. -/
def RemoveInventoryItem (inv : Inventory) (removedItem : Option UItem) (removeCount : Int) :
    Bool × Inventory :=
  match removedItem with
  | none => (false, inv)
  | some it =>
    let itemCount := GetInventoryItemCount inv (some it)
    if itemCount ≤ 0 then (false, inv)
    else
      let itemCount' :=
        if removeCount ≤ 0 then 0
        else FMathClamp (itemCount - removeCount) 0 it.MaxCount
      if itemCount' > 0 then (true, setCount inv it itemCount')
      else (true, eraseItem inv it)

/-- APlayerCharacter::UseItem (lines 872-888).  The healing and the broadcast
touch no inventory state; only the flag and the inventory are kept. -/
def UseItem (inv : Inventory) (item : Option UItem) : Bool × Inventory :=
  if GetInventoryItemCount inv item ≤ 0 then (false, inv)
  else RemoveInventoryItem inv item 1

/-- One inventory-mutating call. -/
inductive InvOp where
  | add (item : Option UItem) (n : Int)
  | remove (item : Option UItem) (n : Int)
  | use (item : Option UItem)

/-- The inventory produced by one call. -/
def applyOp (inv : Inventory) : InvOp → Inventory
  | .add item n => (AddInventoryItem inv item n).inv
  | .remove item n => (RemoveInventoryItem inv item n).2
  | .use item => (UseItem inv item).2

/-- The inventory after a sequence of calls starting from the empty inventory. -/
def runOps (ops : List InvOp) : Inventory :=
  ops.foldl applyOp []

/-- The keys of the dictionary are pairwise distinct (TMap keys are unique;
every inventory the code builds satisfies this). -/
def keysNodup (inv : Inventory) : Prop :=
  (inv.map Prod.fst).Nodup

instance (inv : Inventory) : Decidable (keysNodup inv) := by
  unfold keysNodup
  infer_instance

/-! ## Player character state (PlayerCharacter.cpp)

The fields of `PState` are the members of APlayerCharacter that the claimed
code paths read or write.  Capability checks implemented only in the parent
class OsuCharacter or by the engine (CanMove, IsJumping, CanDodgeRoll,
IsDodging, IsPlayingFistAttackMontage) appear as boolean fields: they are
inputs of the embedded transition functions.  The enemy actor pointed to by
`LockTargetEnemy` is embedded by value: its mutable flags travel inside the
`Option`. -/

/-- EAnimationState (the states the switch in SetAnimationState handles). -/
inductive EAnimationState where
  | Unarmed
  | Pistol
  | Rifle
deriving DecidableEq

/-- An AEnemyCharacter, as far as PlayerCharacter.cpp reads it: an identity,
IsDead(), the IsExecutable flag, and whether its target widget is visible. -/
structure Enemy where
  id : Nat
  isDead : Bool
  isExecutable : Bool
  widgetVisible : Bool
deriving DecidableEq

/-- An actor returned by a collision trace: either an AEnemyCharacter or some
other actor (for which Cast<AEnemyCharacter> yields null). -/
inductive HitActor where
  | enemyActor (e : Enemy)
  | otherActor
deriving DecidableEq

/-- Cast<AEnemyCharacter>(OutHit.GetActor()). -/
def castEnemy : HitActor → Option Enemy
  | .enemyActor e => some e
  | .otherActor => none

/-- The player-character state touched by the claimed code paths. -/
structure PState where
  CurrentAnimationState : EAnimationState
  IsTargetLocking : Bool
  LockTargetEnemy : Option Enemy
  ExecutingTarget : Option Enemy
  bOrientRotationToMovement : Bool
  bUseControllerRotationYaw : Bool
  IsSprinting : Bool
  IsCrouching : Bool
  canMove : Bool
  isJumping : Bool
  MaxWalkSpeed : ℚ
  WalkSpeed : ℚ
  SprintSpeed : ℚ
  CurrentMovementVector : ℚ × ℚ
  IsMeleeAttackInputReceived : Bool
  canDodgeRoll : Bool
  isDodging : Bool
  isPlayingFistAttackMontage : Bool
deriving DecidableEq

/-! ### Target lock (lines 102-131, 253-265, 477-513) -/

/-- The sphere trace issued by SearchEnemyInFront, as built from the actor
location and the camera rotation's unit direction vector. -/
structure TraceQuery where
  StartLocation : Vec3
  EndLocation : Vec3
  Radius : ℚ
  IgnoresSelf : Bool
deriving DecidableEq

/-- APlayerCharacter::SearchEnemyInFront (lines 253-265): the trace it
requests.  The end point lies 1300 units from the actor location along the
camera direction, then has its Z flattened to the start's Z; the sphere radius
is 500 and the player itself is ignored. -/
def SearchEnemyInFront (actorLocation cameraDirection : Vec3) : TraceQuery :=
  { StartLocation := actorLocation
    EndLocation :=
      { x := actorLocation.x + cameraDirection.x * 1300
        y := actorLocation.y + cameraDirection.y * 1300
        z := actorLocation.z }
    Radius := 500
    IgnoresSelf := true }

/-- APlayerCharacter::UnlockTarget (lines 477-483).  It dereferences
`LockTargetEnemy` (HideTargetWidget) with no null check: `none` is the null
dereference. -/
def UnlockTarget (s : PState) : Option PState :=
  match s.LockTargetEnemy with
  | none => none
  | some e =>
    some { s with
            IsTargetLocking := false
            LockTargetEnemy := some { e with widgetVisible := false }
            bOrientRotationToMovement := true
            bUseControllerRotationYaw := false }

/-- APlayerCharacter::TryTargetLock (lines 485-513).  The result of the sphere
trace is the input `trace` (`none` when the trace hit nothing).  Note that on
a hit the code assigns `LockTargetEnemy` the cast result even when the cast
fails. -/
def TryTargetLock (s : PState) (trace : Option HitActor) : Option PState :=
  if s.CurrentAnimationState ≠ EAnimationState.Unarmed then some s
  else if s.IsTargetLocking then UnlockTarget s
  else
    match trace with
    | none => some s
    | some hit =>
      match castEnemy hit with
      | none => some { s with LockTargetEnemy := none }
      | some e =>
        some { s with
                LockTargetEnemy := some { e with widgetVisible := true }
                bOrientRotationToMovement := false
                bUseControllerRotationYaw := true
                IsTargetLocking := true }

/-- The widget updates Tick makes inside its `LockTargetEnemy != nullptr`
guard (lines 115-123). -/
def tickWidgetUpdate (e : Enemy) : Enemy :=
  if e.isExecutable && e.widgetVisible then { e with widgetVisible := false }
  else if !e.isExecutable && !e.widgetVisible then { e with widgetVisible := true }
  else e

/-- APlayerCharacter::Tick (lines 102-131), restricted to the state modelled
here (the control-rotation update and the zoom timeline only drive engine
state).  The call `LockTargetEnemy->IsDead()` on line 125 sits outside the
null check: reaching it with a null `LockTargetEnemy` is the null dereference,
embedded as `none`. -/
def Tick (s : PState) : Option PState :=
  if s.IsTargetLocking then
    let s1 :=
      match s.LockTargetEnemy with
      | some e => { s with LockTargetEnemy := some (tickWidgetUpdate e) }
      | none => s
    match s1.LockTargetEnemy with
    | none => none
    | some e => if e.isDead then UnlockTarget s1 else some s1
  else some s

/-- The invariant of claim C7: whenever target lock is engaged, the lock
target is a non-null enemy. -/
def LockInvariant (s : PState) : Prop :=
  s.IsTargetLocking = true → s.LockTargetEnemy.isSome = true

instance (s : PState) : Decidable (LockInvariant s) := by
  unfold LockInvariant
  infer_instance

/-! ### Dodge roll (lines 442-467) -/

/-- The four dodge montages. -/
inductive DodgeMontage where
  | forwardRoll
  | rightRoll
  | leftRoll
  | backwardRoll
deriving DecidableEq

/-- APlayerCharacter::TryDodgeRoll (lines 442-467): which montage gets played
(`none` when the guards reject the input).  Montage_Play changes no state
modelled here, so the played montage is the whole observable effect. -/
def TryDodgeRoll (s : PState) : Option DodgeMontage :=
  if !s.canDodgeRoll then none
  else if s.isDodging then none
  else if !s.IsTargetLocking && s.CurrentAnimationState = EAnimationState.Unarmed then
    some .forwardRoll
  else if s.CurrentMovementVector.1 > 0 then some .rightRoll
  else if s.CurrentMovementVector.1 < 0 then some .leftRoll
  else if s.CurrentMovementVector.2 < 0 then some .backwardRoll
  else some .forwardRoll

/-! ### Sprint (lines 321-324, 358-373) -/

/-- APlayerCharacter::CanSprint (lines 321-324). -/
def CanSprint (s : PState) : Bool :=
  s.canMove && !s.IsCrouching && !s.isJumping

/-- APlayerCharacter::OnSprintStart (lines 358-365).  The call into
WeaponSystemComponent touches no state modelled here. -/
def OnSprintStart (s : PState) : PState :=
  if s.IsSprinting then s
  else if !CanSprint s then s
  else { s with IsSprinting := true, MaxWalkSpeed := s.SprintSpeed }

/-- APlayerCharacter::OnSprintEnd (lines 367-373). -/
def OnSprintEnd (s : PState) : PState :=
  if !s.IsSprinting then s
  else { s with IsSprinting := false, MaxWalkSpeed := s.WalkSpeed }

/-! ### Fist-attack combo buffering (lines 598-679) -/

/-- Whether the first list is a leading segment of the second. -/
def leadMatch : List Char → List Char → Bool
  | [], _ => true
  | _ :: _, [] => false
  | a :: as, b :: bs => a = b && leadMatch as bs

/-- Whether the first list occurs contiguously inside the second. -/
def subMatch (pat : List Char) : List Char → Bool
  | [] => leadMatch pat []
  | c :: rest => leadMatch pat (c :: rest) || subMatch pat rest

/-- FString::Contains, on the characters of the strings.  The engine method
defaults to ESearchCase::IgnoreCase, so both strings are lowercased before
the containment test. -/
def strContains (hay pat : String) : Bool :=
  subMatch (pat.toList.map Char.toLower) (hay.toList.map Char.toLower)

/-- The engine-supplied inputs of one TryFistAttack call: the size of the
FistAttackMontages array, the sphere-trace result, whether the hit enemy is
within GetDistanceTo <= 130, and the index RandRange draws. -/
structure FistCtx where
  montageCount : Nat
  traceHit : Option HitActor
  inAttackRange : Bool
  randomIndex : Nat
deriving DecidableEq

/-- The montage a TryFistAttack call starts. -/
inductive PlayedMontage where
  | executePunch
  | fistAttack (idx : Nat)
deriving DecidableEq

/-- Whether the execute branch of TryFistAttack fires (lines 611-627): the
trace hit an enemy that is in attack range and executable. -/
def hasExecutableTargetInRange (ctx : FistCtx) : Bool :=
  match ctx.traceHit with
  | none => false
  | some hit =>
    match castEnemy hit with
    | none => false
    | some e => ctx.inAttackRange && e.isExecutable

/-- The tail of TryFistAttack (lines 629-638): play a random fist-attack
montage when none is playing, otherwise buffer the input in
IsMeleeAttackInputReceived. -/
def fistAttackTail (s : PState) (ctx : FistCtx) : PState × Option PlayedMontage :=
  if !s.isPlayingFistAttackMontage then
    (s, some (.fistAttack ctx.randomIndex))
  else
    ({ s with IsMeleeAttackInputReceived := true }, none)

/-- APlayerCharacter::TryFistAttack (lines 598-639). -/
def TryFistAttack (s : PState) (ctx : FistCtx) : PState × Option PlayedMontage :=
  if ctx.montageCount = 0 then (s, none)
  else
    match ctx.traceHit with
    | none => fistAttackTail s ctx
    | some hit =>
      match castEnemy hit with
      | none => fistAttackTail s ctx
      | some e =>
        if ctx.inAttackRange && e.isExecutable then
          ({ s with ExecutingTarget := some e }, some .executePunch)
        else fistAttackTail s ctx

/-- APlayerCharacter::OnPlayMontageNotifyBegin (lines 642-668), restricted to
the state modelled here: the Boolean result records whether Montage_Stop was
called.  The Execute and BeginPush branches only apply damage / broadcast a
delegate, which touches no modelled state. -/
def OnPlayMontageNotifyBegin (s : PState) (notifyName : String) : PState × Bool :=
  let stopped := !s.IsMeleeAttackInputReceived && notifyName = ("ComboContinue")
  let s1 :=
    if notifyName = ("ComboContinue") then { s with IsMeleeAttackInputReceived := false }
    else s
  (s1, stopped)

/-- APlayerCharacter::OnMontageEnded (lines 671-679): clear the buffered combo
input when the ended montage's name contains "Combo". -/
def OnMontageEnded (s : PState) (montageName : String) : PState :=
  if strContains montageName ("Combo") then { s with IsMeleeAttackInputReceived := false }
  else s

/-! ## Transporter -/

/-- Modelled from the spec: the implementation file of UTransporter is not in
the sources (only Transporter.h is), so TickComponent,
OnButtonActivated and OnButtonDeactivated are modelled from the spec sentence
"Transporter: a component that moves its owner actor between two fixed points
over a configured duration when triggered", over the fields Transporter.h
declares (StartPoint, EndPoint, ArePointsSet, MoveTime, IsTriggered).  The
owner's location is parameterised by the fraction `alpha` travelled from
StartPoint to EndPoint; a tick moves the fraction toward 1 when triggered and
toward 0 otherwise, at the constant rate 1/MoveTime, once the points are
set. -/
structure TransporterState where
  StartPoint : Vec3
  EndPoint : Vec3
  ArePointsSet : Bool
  MoveTime : ℚ
  IsTriggered : Bool
  alpha : ℚ
deriving DecidableEq

/-- Modelled from the spec: UTransporter::OnButtonActivated engages the
trigger. -/
def OnButtonActivated (t : TransporterState) : TransporterState :=
  { t with IsTriggered := true }

/-- Modelled from the spec: UTransporter::OnButtonDeactivated releases the
trigger. -/
def OnButtonDeactivated (t : TransporterState) : TransporterState :=
  { t with IsTriggered := false }

/-- Modelled from the spec: UTransporter::TickComponent advances the owner
toward EndPoint while triggered and back toward StartPoint while untriggered,
covering the whole segment in MoveTime seconds, once the points are set. -/
def TickComponent (t : TransporterState) (deltaTime : ℚ) : TransporterState :=
  if t.ArePointsSet ∧ 0 < t.MoveTime then
    if t.IsTriggered then { t with alpha := min (t.alpha + deltaTime / t.MoveTime) 1 }
    else { t with alpha := max (t.alpha - deltaTime / t.MoveTime) 0 }
  else t

/-- The owner actor's location: the point the fraction `alpha` of the way from
StartPoint to EndPoint. -/
def ownerLocation (t : TransporterState) : Vec3 :=
  { x := t.StartPoint.x + t.alpha * (t.EndPoint.x - t.StartPoint.x)
    y := t.StartPoint.y + t.alpha * (t.EndPoint.y - t.StartPoint.y)
    z := t.StartPoint.z + t.alpha * (t.EndPoint.z - t.StartPoint.z) }

/-! ## Helper lemmas about the inventory dictionary -/

theorem findCount_eq_none_of_not_mem_keys {inv : Inventory} {it : UItem}
    (h : it ∉ inv.map Prod.fst) : findCount inv it = none := by
  induction inv with
  | nil => rfl
  | cons p rest ih =>
    obtain ⟨k, v⟩ := p
    simp only [List.map_cons, List.mem_cons] at h
    push_neg at h
    have hk : ¬(k = it) := fun hk => h.1 hk.symm
    simp only [findCount, if_neg hk]
    exact ih h.2

theorem findCount_eq_some_of_mem {inv : Inventory} {it : UItem} {c : Int}
    (hnd : keysNodup inv) (h : (it, c) ∈ inv) : findCount inv it = some c := by
  induction inv with
  | nil => cases h
  | cons p rest ih =>
    obtain ⟨k, v⟩ := p
    rw [keysNodup, List.map_cons, List.nodup_cons] at hnd
    rcases List.mem_cons.mp h with h1 | h1
    · simp only [Prod.mk.injEq] at h1
      obtain ⟨rfl, rfl⟩ := h1
      simp [findCount]
    · have hk : ¬(k = it) := by
        rintro rfl
        exact hnd.1 (List.mem_map.mpr ⟨(k, c), h1, rfl⟩)
      simp only [findCount, if_neg hk]
      exact ih hnd.2 h1

theorem mem_of_findCount_eq_some {inv : Inventory} {it : UItem} {c : Int}
    (h : findCount inv it = some c) : (it, c) ∈ inv := by
  induction inv with
  | nil => cases h
  | cons p rest ih =>
    obtain ⟨k, v⟩ := p
    by_cases hk : k = it
    · subst hk
      simp only [findCount, if_true, eq_self_iff_true, if_pos, Option.some.injEq] at h
      rw [show c = v from h.symm]
      exact List.mem_cons_self _ _
    · simp only [findCount, if_neg hk] at h
      exact List.mem_cons_of_mem _ (ih h)

theorem containsItem_eq_isSome (inv : Inventory) (it : UItem) :
    containsItem inv it = (findCount inv it).isSome := by
  induction inv with
  | nil => rfl
  | cons p rest ih =>
    obtain ⟨k, v⟩ := p
    by_cases hk : k = it
    · subst hk
      simp [containsItem, findCount]
    · simp only [containsItem, List.any_cons, findCount, if_neg hk]
      simpa [containsItem, hk] using ih

theorem findCount_setCount (inv : Inventory) (it : UItem) (c : Int) :
    findCount (setCount inv it c) it = (findCount inv it).map (fun _ => c) := by
  induction inv with
  | nil => rfl
  | cons p rest ih =>
    obtain ⟨k, v⟩ := p
    by_cases hk : k = it
    · subst hk
      simp [setCount, findCount]
    · simp only [setCount, if_neg hk, findCount]
      exact ih

theorem findCount_eraseItem {inv : Inventory} {it : UItem}
    (hnd : keysNodup inv) : findCount (eraseItem inv it) it = none := by
  induction inv with
  | nil => rfl
  | cons p rest ih =>
    obtain ⟨k, v⟩ := p
    rw [keysNodup, List.map_cons, List.nodup_cons] at hnd
    by_cases hk : k = it
    · subst hk
      simp only [eraseItem, if_pos rfl]
      exact findCount_eq_none_of_not_mem_keys hnd.1
    · simp only [eraseItem, if_neg hk, findCount, if_neg hk]
      exact ih hnd.2

theorem findCount_append_single {inv : Inventory} {it : UItem} (n : Int)
    (h : findCount inv it = none) : findCount (inv ++ [(it, n)]) it = some n := by
  induction inv with
  | nil => simp [findCount]
  | cons p rest ih =>
    obtain ⟨k, v⟩ := p
    by_cases hk : k = it
    · subst hk
      simp [findCount] at h
    · simp only [findCount, if_neg hk] at h
      simp only [List.cons_append, findCount, if_neg hk]
      exact ih h

theorem mem_eraseItem {inv : Inventory} {it : UItem} {p : UItem × Int}
    (h : p ∈ eraseItem inv it) : p ∈ inv := by
  induction inv with
  | nil => cases h
  | cons q rest ih =>
    obtain ⟨k, v⟩ := q
    by_cases hk : k = it
    · subst hk
      simp only [eraseItem, if_pos rfl] at h
      exact List.mem_cons_of_mem _ h
    · simp only [eraseItem, if_neg hk, List.mem_cons] at h
      rcases h with h | h
      · exact h ▸ List.mem_cons_self _ _
      · exact List.mem_cons_of_mem _ (ih h)

theorem FMathClamp_eq_max_min {x lo hi : Int} (h : lo ≤ hi) :
    FMathClamp x lo hi = max lo (min x hi) := by
  simp only [FMathClamp]
  split
  · omega
  · split <;> omega

theorem le_FMathClamp {x lo hi : Int} (h : lo ≤ hi) : lo ≤ FMathClamp x lo hi := by
  simp only [FMathClamp]
  split
  · omega
  · split <;> omega

/-- Every count stored in the dictionary is at least 1. -/
def allPos (inv : Inventory) : Prop :=
  ∀ p ∈ inv, 1 ≤ p.2

theorem allPos_setCount {inv : Inventory} {it : UItem} {c : Int}
    (h : allPos inv) (hc : 1 ≤ c) : allPos (setCount inv it c) := by
  induction inv with
  | nil => intro p hp; cases hp
  | cons q rest ih =>
    obtain ⟨k, v⟩ := q
    intro p hp
    by_cases hk : k = it
    · simp only [setCount, if_pos hk, List.mem_cons] at hp
      rcases hp with rfl | hp
      · exact hc
      · exact h p (List.mem_cons_of_mem _ hp)
    · simp only [setCount, if_neg hk, List.mem_cons] at hp
      rcases hp with rfl | hp
      · exact h _ (List.mem_cons_self _ _)
      · exact ih (fun q hq => h q (List.mem_cons_of_mem _ hq)) p hp

theorem allPos_eraseItem {inv : Inventory} {it : UItem}
    (h : allPos inv) : allPos (eraseItem inv it) :=
  fun p hp => h p (mem_eraseItem hp)

theorem one_le_adjustedMaxCount (m : Int) : 1 ≤ if m ≤ 0 then MAX_int32 else m := by
  split
  · decide
  · omega

theorem allPos_AddInventoryItem {inv : Inventory} (item : Option UItem) (n : Int)
    (h : allPos inv) : allPos (AddInventoryItem inv item n).inv := by
  match item with
  | none => exact h
  | some it =>
    simp only [AddInventoryItem]
    split
    · exact h
    · split
      · exact allPos_setCount h (le_FMathClamp (one_le_adjustedMaxCount it.MaxCount))
      · intro p hp
        rcases List.mem_append.mp hp with hp | hp
        · exact h p hp
        · simp only [List.mem_singleton] at hp
          subst hp
          omega

theorem allPos_RemoveInventoryItem {inv : Inventory} (item : Option UItem) (n : Int)
    (h : allPos inv) : allPos (RemoveInventoryItem inv item n).2 := by
  match item with
  | none => exact h
  | some it =>
    simp only [RemoveInventoryItem]
    split
    · exact h
    · split
      · split
        · next hh => exact absurd hh (by omega)
        · exact allPos_eraseItem h
      · split
        · next hh => exact allPos_setCount h (by omega)
        · exact allPos_eraseItem h

theorem allPos_UseItem {inv : Inventory} (item : Option UItem)
    (h : allPos inv) : allPos (UseItem inv item).2 := by
  rw [UseItem]
  split
  · exact h
  · exact allPos_RemoveInventoryItem item 1 h

theorem allPos_applyOp {inv : Inventory} (h : allPos inv) (op : InvOp) :
    allPos (applyOp inv op) := by
  cases op with
  | add item n => exact allPos_AddInventoryItem item n h
  | remove item n => exact allPos_RemoveInventoryItem item n h
  | use item => exact allPos_UseItem item h

theorem foldl_applyOp_allPos (ops : List InvOp) :
    ∀ inv : Inventory, allPos inv → allPos (ops.foldl applyOp inv) := by
  induction ops with
  | nil => intro inv h; exact h
  | cons op rest ih => intro inv h; exact ih _ (allPos_applyOp h op)

theorem runOps_allPos (ops : List InvOp) : allPos (runOps ops) :=
  foldl_applyOp_allPos ops [] (fun p hp => absurd hp (List.not_mem_nil p))

/-! ## The claims -/

/-- Claim C2: for every item, GetInventoryItemCount returns the count stored
for that item in the inventory dictionary when the item is present and 0 when
it is absent (the `const` method is embedded as a pure function of the
inventory, so it cannot modify it; a null item is never present, and its
lookup also yields 0). -/
theorem C2_GetInventoryItemCount_reads_count (inv : Inventory) (it : UItem)
    (hnd : keysNodup inv) :
    (∀ c : Int, (it, c) ∈ inv → GetInventoryItemCount inv (some it) = c) ∧
    ((∀ c : Int, (it, c) ∉ inv) → GetInventoryItemCount inv (some it) = 0) ∧
    GetInventoryItemCount inv none = 0 := by
  refine ⟨?_, ?_, rfl⟩
  · intro c hc
    rw [GetInventoryItemCount, findCount_eq_some_of_mem hnd hc]
  · intro habs
    rw [GetInventoryItemCount]
    rcases hfc : findCount inv it with _ | c
    · rfl
    · exact absurd (mem_of_findCount_eq_some hfc) (habs c)

/-- Witness for C2 at a concrete inventory. -/
theorem C2_GetInventoryItemCount_reads_count_witness :
    GetInventoryItemCount ([(⟨0, 5⟩, 3)]) (some ⟨0, 5⟩) = 3 :=
  (C2_GetInventoryItemCount_reads_count ([(⟨0, 5⟩, 3)]) ⟨0, 5⟩ (by decide)).1 3 (by decide)

/-- Claim C5: starting from the empty inventory, after any sequence of
AddInventoryItem / RemoveInventoryItem / UseItem calls every count stored in
the dictionary is at least 1, and HasItem holds exactly when
GetInventoryItemCount is positive. -/
theorem C5_inventory_counts_at_least_one (ops : List InvOp) (item : Option UItem) :
    (∀ p ∈ runOps ops, 1 ≤ p.2) ∧
    (HasItem (runOps ops) item = true ↔ 0 < GetInventoryItemCount (runOps ops) item) := by
  have hpos : allPos (runOps ops) := runOps_allPos ops
  refine ⟨hpos, ?_⟩
  cases item with
  | none => simp [HasItem, GetInventoryItemCount]
  | some it =>
    constructor
    · intro h
      rw [HasItem, containsItem_eq_isSome] at h
      obtain ⟨c, hc⟩ := Option.isSome_iff_exists.mp h
      have h1 := hpos _ (mem_of_findCount_eq_some hc)
      rw [GetInventoryItemCount, hc]
      exact lt_of_lt_of_le Int.zero_lt_one h1
    · intro h
      rw [HasItem, containsItem_eq_isSome]
      rcases hfc : findCount (runOps ops) it with _ | c
      · rw [GetInventoryItemCount, hfc] at h
        exact absurd h (lt_irrefl 0)
      · rfl

theorem FMathClamp_nonpos {x hi : Int} (hx : x ≤ 0) : FMathClamp x 0 hi ≤ 0 := by
  simp only [FMathClamp]
  split
  · omega
  · split <;> omega

/-- Claim C4: AddInventoryItem returns false and leaves the inventory
unchanged when the item is null or the count non-positive; otherwise it
returns true, inserting an absent item at ItemCount (and broadcasting
OnPlayerAddItem) and setting an existing item's count to
clamp(old + ItemCount, 1, MaxCount), where MaxCount <= 0 is read as
MAX_int32. -/
theorem C4_AddInventoryItem_spec (inv : Inventory) (it : UItem) (n c : Int) :
    (∀ m : Int, AddInventoryItem inv none m = ⟨false, inv, false⟩) ∧
    (n ≤ 0 → AddInventoryItem inv (some it) n = ⟨false, inv, false⟩) ∧
    (0 < n → containsItem inv it = false →
      AddInventoryItem inv (some it) n = ⟨true, inv ++ [(it, n)], true⟩ ∧
      GetInventoryItemCount (AddInventoryItem inv (some it) n).inv (some it) = n) ∧
    (0 < n → findCount inv it = some c →
      (AddInventoryItem inv (some it) n).ok = true ∧
      (AddInventoryItem inv (some it) n).broadcastAddItem = false ∧
      GetInventoryItemCount (AddInventoryItem inv (some it) n).inv (some it) =
        max 1 (min (c + n) (if it.MaxCount ≤ 0 then MAX_int32 else it.MaxCount))) := by
  refine ⟨fun m => rfl, ?_, ?_, ?_⟩
  · intro hn
    simp [AddInventoryItem, if_pos hn]
  · intro hn hcont
    have hn' : ¬(n ≤ 0) := by omega
    have h1 : AddInventoryItem inv (some it) n = ⟨true, inv ++ [(it, n)], true⟩ := by
      simp [AddInventoryItem, hn', hcont]
    refine ⟨h1, ?_⟩
    have hfc : findCount inv it = none := by
      have h2 := containsItem_eq_isSome inv it
      rw [hcont] at h2
      rcases hx : findCount inv it with _ | c0
      · rfl
      · rw [hx] at h2
        cases h2
    rw [h1, GetInventoryItemCount, findCount_append_single n hfc]
  · intro hn hfc
    have hcont : containsItem inv it = true := by
      rw [containsItem_eq_isSome, hfc]
      rfl
    have hn' : ¬(n ≤ 0) := by omega
    have h1 : AddInventoryItem inv (some it) n =
        ⟨true,
          setCount inv it
            (FMathClamp (c + n) 1 (if it.MaxCount ≤ 0 then MAX_int32 else it.MaxCount)),
          false⟩ := by
      simp [AddInventoryItem, hn', hcont, hfc]
    rw [h1]
    refine ⟨rfl, rfl, ?_⟩
    rw [GetInventoryItemCount, findCount_setCount, hfc]
    exact FMathClamp_eq_max_min (one_le_adjustedMaxCount it.MaxCount)

/-- Witness for C4 at concrete inventories: inserting a new item and topping
up an existing one against its MaxCount. -/
theorem C4_AddInventoryItem_spec_witness :
    (AddInventoryItem [] (some ⟨1, 2⟩) 3 = ⟨true, [(⟨1, 2⟩, 3)], true⟩ ∧
      GetInventoryItemCount (AddInventoryItem [] (some ⟨1, 2⟩) 3).inv (some ⟨1, 2⟩) = 3) ∧
    GetInventoryItemCount
      (AddInventoryItem ([(⟨1, 2⟩, 1)]) (some ⟨1, 2⟩) 5).inv (some ⟨1, 2⟩) = 2 :=
  ⟨(C4_AddInventoryItem_spec [] ⟨1, 2⟩ 3 0).2.2.1 (by decide) (by decide),
    ((C4_AddInventoryItem_spec ([(⟨1, 2⟩, 1)]) ⟨1, 2⟩ 5 1).2.2.2 (by decide) (by decide)).2.2⟩

/-- Counterexample to claim C3 as stated: the item ⟨0, 3⟩ (MaxCount 3) is
present with stored count 5 — a state AddInventoryItem can build, since it
inserts an absent item's count without clamping — and RemoveCount 1 satisfies
0 < 1 < 5, yet the stored count afterwards is 3, not 5 - 1 = 4: the code
clamps the decremented count to MaxCount. -/
theorem C3_counterexample :
    (RemoveInventoryItem ([(⟨0, 3⟩, 5)]) (some ⟨0, 3⟩) 1).1 = true ∧
    GetInventoryItemCount (RemoveInventoryItem ([(⟨0, 3⟩, 5)]) (some ⟨0, 3⟩) 1).2
      (some ⟨0, 3⟩) = 3 ∧
    ¬((5 : Int) - 1 = 3) := by decide

/-- Claim C3 amended: the partial-removal clause additionally requires the
stored count not to exceed the item's MaxCount (the code clamps the
decremented count into [0, MaxCount]); the other clauses are as claimed: with
RemoveCount >= count or <= 0 the entry is removed entirely and true returned,
and a null item or a zero stored count returns false and leaves the inventory
unchanged. -/
theorem C3_RemoveInventoryItem_amended (inv : Inventory) (it : UItem) (n c : Int)
    (hnd : keysNodup inv) :
    (findCount inv it = some c → 0 < n → n < c → c ≤ it.MaxCount →
      (RemoveInventoryItem inv (some it) n).1 = true ∧
      findCount (RemoveInventoryItem inv (some it) n).2 it = some (c - n)) ∧
    (findCount inv it = some c → 0 < c → (c ≤ n ∨ n ≤ 0) →
      (RemoveInventoryItem inv (some it) n).1 = true ∧
      findCount (RemoveInventoryItem inv (some it) n).2 it = none) ∧
    (RemoveInventoryItem inv none n = (false, inv)) ∧
    (GetInventoryItemCount inv (some it) = 0 →
      RemoveInventoryItem inv (some it) n = (false, inv)) := by
  refine ⟨?_, ?_, rfl, ?_⟩
  · intro hfc hn hnc hcm
    have hget : GetInventoryItemCount inv (some it) = c := by
      rw [GetInventoryItemCount, hfc]
    have hclamp : FMathClamp (c - n) 0 it.MaxCount = c - n := by
      simp only [FMathClamp]
      split
      · omega
      · split <;> omega
    have h1 : RemoveInventoryItem inv (some it) n = (true, setCount inv it (c - n)) := by
      simp only [RemoveInventoryItem, hget]
      rw [if_neg (by omega), if_neg (by omega : ¬(n ≤ 0)), hclamp, if_pos (by omega)]
    rw [h1, findCount_setCount, hfc]
    exact ⟨rfl, rfl⟩
  · intro hfc hc hn
    have hget : GetInventoryItemCount inv (some it) = c := by
      rw [GetInventoryItemCount, hfc]
    have h1 : RemoveInventoryItem inv (some it) n = (true, eraseItem inv it) := by
      simp only [RemoveInventoryItem]
      rw [if_neg (by omega)]
      rcases le_or_lt n 0 with hn0 | hn0
      · rw [if_pos hn0, if_neg (by omega)]
      · have hcn : c ≤ n := hn.resolve_right (by omega)
        have hcl : FMathClamp (GetInventoryItemCount inv (some it) - n) 0 it.MaxCount ≤ 0 :=
          FMathClamp_nonpos (by omega)
        rw [if_neg (by omega)]
    rw [h1]
    exact ⟨rfl, findCount_eraseItem hnd⟩
  · intro hz
    simp only [RemoveInventoryItem, hz]
    rw [if_pos (by omega)]

/-- Witness for the amended C3 at a concrete inventory: count 5, MaxCount 10,
removing 2 leaves 3; removing 7 deletes the entry. -/
theorem C3_RemoveInventoryItem_amended_witness :
    ((RemoveInventoryItem ([(⟨2, 10⟩, 5)]) (some ⟨2, 10⟩) 2).1 = true ∧
      findCount (RemoveInventoryItem ([(⟨2, 10⟩, 5)]) (some ⟨2, 10⟩) 2).2 ⟨2, 10⟩ = some 3) ∧
    findCount (RemoveInventoryItem ([(⟨2, 10⟩, 5)]) (some ⟨2, 10⟩) 7).2 ⟨2, 10⟩ = none :=
  ⟨(C3_RemoveInventoryItem_amended ([(⟨2, 10⟩, 5)]) ⟨2, 10⟩ 2 5 (by decide)).1
      (by decide) (by decide) (by decide) (by decide),
    ((C3_RemoveInventoryItem_amended ([(⟨2, 10⟩, 5)]) ⟨2, 10⟩ 7 5 (by decide)).2.1
      (by decide) (by decide) (Or.inl (by decide))).2⟩

/-- A concrete player state used to instantiate the claim theorems. -/
def sampleState : PState :=
  { CurrentAnimationState := EAnimationState.Unarmed
    IsTargetLocking := false
    LockTargetEnemy := none
    ExecutingTarget := none
    bOrientRotationToMovement := true
    bUseControllerRotationYaw := false
    IsSprinting := false
    IsCrouching := false
    canMove := true
    isJumping := false
    MaxWalkSpeed := 500
    WalkSpeed := 500
    SprintSpeed := 800
    CurrentMovementVector := (0, 0)
    IsMeleeAttackInputReceived := false
    canDodgeRoll := true
    isDodging := false
    isPlayingFistAttackMontage := false }

/-- A concrete player state with the target lock engaged. -/
def lockedState : PState :=
  { sampleState with
      IsTargetLocking := true
      LockTargetEnemy := some ⟨7, false, false, true⟩ }

/-- Claim C7: 'IsTargetLocking implies LockTargetEnemy is non-null' holds
initially and is preserved by Tick, TryTargetLock and UnlockTarget, and under
it Tick always completes: its unguarded `LockTargetEnemy->IsDead()` call (the
only `none` exit of the embedded `Tick`) never dereferences a null pointer. -/
theorem C7_lock_target_nonnull (s : PState) (h : LockInvariant s) :
    ((Tick s).isSome = true ∧ ∀ s' : PState, Tick s = some s' → LockInvariant s') ∧
    (∀ tr : Option HitActor, (TryTargetLock s tr).isSome = true ∧
      ∀ s' : PState, TryTargetLock s tr = some s' → LockInvariant s') ∧
    (∀ s' : PState, UnlockTarget s = some s' → LockInvariant s') := by
  have hUnlock : ∀ u u' : PState, UnlockTarget u = some u' → u'.IsTargetLocking = false := by
    intro u u' hu
    rcases he : u.LockTargetEnemy with _ | e
    · rw [UnlockTarget, he] at hu
      cases hu
    · rw [UnlockTarget, he, Option.some.injEq] at hu
      rw [← hu]
  refine ⟨?_, ?_, ?_⟩
  · by_cases hl : s.IsTargetLocking
    · obtain ⟨e, he⟩ := Option.isSome_iff_exists.mp (h hl)
      rw [Tick, if_pos hl, he]
      simp only
      by_cases hd : (tickWidgetUpdate e).isDead
      · rw [if_pos hd]
        rcases hu : UnlockTarget { s with LockTargetEnemy := some (tickWidgetUpdate e) }
          with _ | u'
        · rw [UnlockTarget] at hu
          simp at hu
        · refine ⟨rfl, ?_⟩
          intro s' hs'
          rw [Option.some.injEq] at hs'
          intro hx
          rw [← hs'] at hx
          rw [hUnlock _ _ hu] at hx
          cases hx
      · rw [if_neg hd]
        refine ⟨rfl, ?_⟩
        intro s' hs'
        rw [Option.some.injEq] at hs'
        intro _
        rw [← hs']
        rfl
    · rw [Tick, if_neg hl]
      exact ⟨rfl, fun s' hs' => by
        rw [Option.some.injEq] at hs'
        rw [← hs']
        exact h⟩
  · intro tr
    rw [TryTargetLock.eq_def]
    by_cases ha : s.CurrentAnimationState ≠ EAnimationState.Unarmed
    · rw [if_pos ha]
      exact ⟨rfl, fun s' hs' => by
        rw [Option.some.injEq] at hs'
        rw [← hs']
        exact h⟩
    · rw [if_neg ha]
      by_cases hl : s.IsTargetLocking
      · rw [if_pos hl]
        obtain ⟨e, he⟩ := Option.isSome_iff_exists.mp (h hl)
        rw [UnlockTarget, he]
        refine ⟨rfl, ?_⟩
        intro s' hs'
        rw [Option.some.injEq] at hs'
        intro hx
        rw [← hs'] at hx
        cases hx
      · rw [if_neg hl]
        match tr with
        | none =>
          exact ⟨rfl, fun s' hs' => by
            rw [Option.some.injEq] at hs'
            rw [← hs']
            exact h⟩
        | some HitActor.otherActor =>
          refine ⟨rfl, ?_⟩
          intro s' hs'
          simp only [castEnemy, Option.some.injEq] at hs'
          intro hx
          rw [← hs'] at hx
          exact absurd (hl (by simpa using hx)) id
        | some (HitActor.enemyActor e) =>
          refine ⟨rfl, ?_⟩
          intro s' hs'
          simp only [castEnemy, Option.some.injEq] at hs'
          intro _
          rw [← hs']
          rfl
  · intro s' hs'
    intro hx
    rw [hUnlock _ _ hs'] at hx
    cases hx

/-- Witness for C7: in a state with the lock engaged on a live enemy, Tick
completes without the null dereference. -/
theorem C7_lock_target_nonnull_witness : (Tick lockedState).isSome = true :=
  (C7_lock_target_nonnull lockedState (by decide)).1.1

/-- Claim C6: TryTargetLock does nothing unless the animation state is
Unarmed; when already locking it unlocks (flag false, target widget hidden,
orient-rotation-to-movement restored); otherwise the search issues a sphere
trace from the actor location, 1300 units along the camera direction with the
end height flattened to the start height, radius 500, ignoring self, and the
lock engages exactly when the hit actor is an enemy character, which becomes
LockTargetEnemy with its target widget shown. -/
theorem C6_TryTargetLock_spec (s : PState) (tr : Option HitActor) (loc dir : Vec3)
    (h : LockInvariant s) :
    (s.CurrentAnimationState ≠ EAnimationState.Unarmed → TryTargetLock s tr = some s) ∧
    (s.CurrentAnimationState = EAnimationState.Unarmed → s.IsTargetLocking = true →
      ∃ e : Enemy, s.LockTargetEnemy = some e ∧
        TryTargetLock s tr = some { s with
          IsTargetLocking := false
          LockTargetEnemy := some { e with widgetVisible := false }
          bOrientRotationToMovement := true
          bUseControllerRotationYaw := false }) ∧
    (s.CurrentAnimationState = EAnimationState.Unarmed → s.IsTargetLocking = false →
      (tr = none → TryTargetLock s tr = some s) ∧
      (tr = some HitActor.otherActor →
        TryTargetLock s tr = some { s with LockTargetEnemy := none }) ∧
      (∀ e : Enemy, tr = some (HitActor.enemyActor e) →
        TryTargetLock s tr = some { s with
          LockTargetEnemy := some { e with widgetVisible := true }
          bOrientRotationToMovement := false
          bUseControllerRotationYaw := true
          IsTargetLocking := true })) ∧
    SearchEnemyInFront loc dir =
      { StartLocation := loc
        EndLocation := { x := loc.x + dir.x * 1300, y := loc.y + dir.y * 1300, z := loc.z }
        Radius := 500
        IgnoresSelf := true } := by
  refine ⟨?_, ?_, ?_, rfl⟩
  · intro ha
    rw [TryTargetLock.eq_def, if_pos ha]
  · intro ha hl
    obtain ⟨e, he⟩ := Option.isSome_iff_exists.mp (h hl)
    refine ⟨e, he, ?_⟩
    rw [TryTargetLock.eq_def, if_neg (by simp [ha]), if_pos hl, UnlockTarget, he]
  · intro ha hl
    refine ⟨?_, ?_, ?_⟩
    · rintro rfl
      rw [TryTargetLock.eq_def, if_neg (by simp [ha]), if_neg (by simp [hl])]
    · rintro rfl
      rw [TryTargetLock.eq_def, if_neg (by simp [ha]), if_neg (by simp [hl])]
      rfl
    · rintro e rfl
      rw [TryTargetLock.eq_def, if_neg (by simp [ha]), if_neg (by simp [hl])]
      rfl

/-- Witness for C6: from an unlocked Unarmed state whose trace hits an enemy,
the lock engages on that enemy with its widget shown. -/
theorem C6_TryTargetLock_spec_witness :
    TryTargetLock sampleState (some (HitActor.enemyActor ⟨7, false, false, false⟩)) =
      some { sampleState with
              LockTargetEnemy := some ⟨7, false, false, true⟩
              bOrientRotationToMovement := false
              bUseControllerRotationYaw := true
              IsTargetLocking := true } :=
  ((C6_TryTargetLock_spec sampleState (some (HitActor.enemyActor ⟨7, false, false, false⟩))
      ⟨0, 0, 0⟩ ⟨1, 0, 0⟩ (by decide)).2.2.1 rfl rfl).2.2 ⟨7, false, false, false⟩ rfl

/-- Claim C8: TryDodgeRoll plays a dodge montage only when CanDodgeRoll holds
and no dodge is in progress; it selects forward when not target-locking and
Unarmed, otherwise right when X > 0, else left when X < 0, else backward when
Y < 0, and forward in every remaining case. -/
theorem C8_TryDodgeRoll_selection (s : PState) :
    ((s.canDodgeRoll = false ∨ s.isDodging = true) → TryDodgeRoll s = none) ∧
    (s.canDodgeRoll = true → s.isDodging = false →
      ((s.IsTargetLocking = false ∧ s.CurrentAnimationState = EAnimationState.Unarmed) →
        TryDodgeRoll s = some DodgeMontage.forwardRoll) ∧
      (¬(s.IsTargetLocking = false ∧ s.CurrentAnimationState = EAnimationState.Unarmed) →
        (0 < s.CurrentMovementVector.1 → TryDodgeRoll s = some DodgeMontage.rightRoll) ∧
        (s.CurrentMovementVector.1 < 0 → TryDodgeRoll s = some DodgeMontage.leftRoll) ∧
        (s.CurrentMovementVector.1 = 0 → s.CurrentMovementVector.2 < 0 →
          TryDodgeRoll s = some DodgeMontage.backwardRoll) ∧
        (s.CurrentMovementVector.1 = 0 → 0 ≤ s.CurrentMovementVector.2 →
          TryDodgeRoll s = some DodgeMontage.forwardRoll))) := by
  refine ⟨?_, ?_⟩
  · rintro (hcd | hd)
    · simp [TryDodgeRoll, hcd]
    · cases hcd : s.canDodgeRoll <;> simp [TryDodgeRoll, hcd, hd]
  · intro hcd hd
    constructor
    · rintro ⟨hl, ha⟩
      simp [TryDodgeRoll, hcd, hd, hl, ha]
    · intro hn
      have hb : (!s.IsTargetLocking &&
          decide (s.CurrentAnimationState = EAnimationState.Unarmed)) = false := by
        cases hlv : s.IsTargetLocking <;> cases hav : s.CurrentAnimationState <;> simp_all
      refine ⟨?_, ?_, ?_, ?_⟩
      · intro h1
        simp [TryDodgeRoll, hcd, hd, hb, h1]
      · intro h1
        simp [TryDodgeRoll, hcd, hd, hb, h1, asymm h1]
      · intro h1 h2
        simp [TryDodgeRoll, hcd, hd, hb, h1, h2]
      · intro h1 h2
        simp [TryDodgeRoll, hcd, hd, hb, h1, not_lt.mpr h2]

/-- Witness for C8: in an unlocked Unarmed state with the guards passing, the
forward roll is played. -/
theorem C8_TryDodgeRoll_selection_witness :
    TryDodgeRoll sampleState = some DodgeMontage.forwardRoll :=
  ((C8_TryDodgeRoll_selection sampleState).2 rfl rfl).1 ⟨rfl, rfl⟩

/-- Claim C10: OnSprintStart is a no-op when already sprinting or CanSprint
fails, and otherwise sets IsSprinting and MaxWalkSpeed := SprintSpeed;
OnSprintEnd is a no-op when not sprinting, and otherwise clears IsSprinting
and restores MaxWalkSpeed := WalkSpeed — so whenever OnSprintStart takes
effect, OnSprintEnd afterwards restores MaxWalkSpeed to the WalkSpeed value
held before sprinting. -/
theorem C10_sprint_restores_walk_speed (s : PState) :
    ((s.IsSprinting = true ∨ CanSprint s = false) → OnSprintStart s = s) ∧
    (s.IsSprinting = false → CanSprint s = true →
      OnSprintStart s = { s with IsSprinting := true, MaxWalkSpeed := s.SprintSpeed }) ∧
    (s.IsSprinting = false → OnSprintEnd s = s) ∧
    (s.IsSprinting = true →
      OnSprintEnd s = { s with IsSprinting := false, MaxWalkSpeed := s.WalkSpeed }) ∧
    (s.IsSprinting = false → CanSprint s = true →
      (OnSprintEnd (OnSprintStart s)).MaxWalkSpeed = s.WalkSpeed ∧
      (OnSprintEnd (OnSprintStart s)).IsSprinting = false) := by
  refine ⟨?_, ?_, ?_, ?_, ?_⟩
  · rintro (hs | hc)
    · simp [OnSprintStart, hs]
    · cases hs : s.IsSprinting <;> simp [OnSprintStart, hs, hc]
  · intro hs hc
    simp [OnSprintStart, hs, hc]
  · intro hs
    simp [OnSprintEnd, hs]
  · intro hs
    simp [OnSprintEnd, hs]
  · intro hs hc
    simp [OnSprintStart, OnSprintEnd, hs, hc]

/-- Witness for C10 at the sample state: sprinting then stopping restores
MaxWalkSpeed to WalkSpeed. -/
theorem C10_sprint_restores_walk_speed_witness :
    (OnSprintEnd (OnSprintStart sampleState)).MaxWalkSpeed = sampleState.WalkSpeed ∧
    (OnSprintEnd (OnSprintStart sampleState)).IsSprinting = false :=
  (C10_sprint_restores_walk_speed sampleState).2.2.2.2 rfl (by decide)

/-- Counterexample to claim C9 as stated: with a fist-attack montage already
playing, TryFistAttack does not always buffer the input.  First input: the
trace finds an executable enemy within attack range, so the code (lines
614-627) plays the execute-punch montage and leaves IsMeleeAttackInputReceived
false.  Second input: the FistAttackMontages array is empty, so the code
returns at the guard of lines 601-608 without setting the flag (and without
playing a montage). -/
theorem C9_counterexample :
    ((TryFistAttack { sampleState with isPlayingFistAttackMontage := true }
        ⟨1, some (HitActor.enemyActor ⟨3, false, true, false⟩), true, 0⟩).2 =
          some PlayedMontage.executePunch ∧
      (TryFistAttack { sampleState with isPlayingFistAttackMontage := true }
        ⟨1, some (HitActor.enemyActor ⟨3, false, true, false⟩), true,
          0⟩).1.IsMeleeAttackInputReceived = false) ∧
    ((TryFistAttack { sampleState with isPlayingFistAttackMontage := true }
        ⟨0, none, false, 0⟩).2 = none ∧
      (TryFistAttack { sampleState with isPlayingFistAttackMontage := true }
        ⟨0, none, false, 0⟩).1.IsMeleeAttackInputReceived = false) :=
  ⟨⟨rfl, rfl⟩, ⟨rfl, rfl⟩⟩

/-- Claim C9 amended: fist-attack combo input is buffered in
IsMeleeAttackInputReceived, provided the FistAttackMontages array is non-empty
and the sphere trace finds no executable enemy within attack range (in those
cases TryFistAttack plays no fist montage or plays the execute-punch montage,
and leaves the flag alone): on that path TryFistAttack sets the flag instead
of starting a montage exactly when a fist-attack montage is already playing
(and starts one without setting it when none is playing); at every
"ComboContinue" notify the montage is stopped exactly when the flag is false
and the flag is reset either way; and the flag is cleared whenever a montage
whose name contains "Combo" (case-insensitively) ends. -/
theorem C9_combo_input_buffering (s : PState) (ctx : FistCtx) (name : String) :
    (ctx.montageCount ≠ 0 → hasExecutableTargetInRange ctx = false →
      (s.isPlayingFistAttackMontage = true →
        TryFistAttack s ctx = ({ s with IsMeleeAttackInputReceived := true }, none)) ∧
      (s.isPlayingFistAttackMontage = false →
        TryFistAttack s ctx = (s, some (PlayedMontage.fistAttack ctx.randomIndex)))) ∧
    ((OnPlayMontageNotifyBegin s ("ComboContinue")).2 = !s.IsMeleeAttackInputReceived ∧
      (OnPlayMontageNotifyBegin s ("ComboContinue")).1.IsMeleeAttackInputReceived = false) ∧
    (strContains name ("Combo") = true →
      (OnMontageEnded s name).IsMeleeAttackInputReceived = false) := by
  refine ⟨?_, ⟨by simp [OnPlayMontageNotifyBegin], by simp [OnPlayMontageNotifyBegin]⟩, ?_⟩
  · intro hmc hexec
    constructor
    · intro hp
      have ht : fistAttackTail s ctx = ({ s with IsMeleeAttackInputReceived := true }, none) := by
        simp [fistAttackTail, hp]
      rw [TryFistAttack.eq_def]
      rw [if_neg hmc]
      match htr : ctx.traceHit with
      | none => rw [← ht]
      | some HitActor.otherActor => rw [← ht]; rfl
      | some (HitActor.enemyActor e) =>
        rw [hasExecutableTargetInRange, htr] at hexec
        simp only [castEnemy] at hexec
        simp only [castEnemy]
        rw [if_neg (by simp [hexec]), ← ht]
    · intro hp
      have ht : fistAttackTail s ctx = (s, some (PlayedMontage.fistAttack ctx.randomIndex)) := by
        simp [fistAttackTail, hp]
      rw [TryFistAttack.eq_def]
      rw [if_neg hmc]
      match htr : ctx.traceHit with
      | none => rw [← ht]
      | some HitActor.otherActor => rw [← ht]; rfl
      | some (HitActor.enemyActor e) =>
        rw [hasExecutableTargetInRange, htr] at hexec
        simp only [castEnemy] at hexec
        simp only [castEnemy]
        rw [if_neg (by simp [hexec]), ← ht]
  · intro hc
    simp [OnMontageEnded, hc]

/-- Witness for C9: with a fist montage already playing, a non-empty montage
array and no executable target, the input is buffered. -/
theorem C9_combo_input_buffering_witness :
    TryFistAttack { sampleState with isPlayingFistAttackMontage := true } ⟨1, none, false, 0⟩ =
      ({ sampleState with
          isPlayingFistAttackMontage := true
          IsMeleeAttackInputReceived := true }, none) :=
  ((C9_combo_input_buffering { sampleState with isPlayingFistAttackMontage := true }
      ⟨1, none, false, 0⟩ ("x")).1 (by decide) (by decide)).1 rfl

/-- Helper for the transporter claim: two vectors are equal when their
components are. -/
theorem Vec3.eq_of {a b : Vec3} (hx : a.x = b.x) (hy : a.y = b.y) (hz : a.z = b.z) :
    a = b := by
  cases a
  cases b
  simp_all

/-- Claim C1 (the Transporter implementation file is not in the sources, so
TickComponent is modelled from the spec): once the points are set
(ArePointsSet) and MoveTime is positive, button activation and deactivation
set and clear IsTriggered; while triggered a tick never moves the owner back
(the travelled fraction is non-decreasing) and, starting from StartPoint, a
tick of MoveTime seconds lands the owner exactly on EndPoint; while
untriggered a tick never advances the owner toward EndPoint (the travelled
fraction is non-increasing). -/
theorem C1_Transporter_moves_between_points (t : TransporterState) (dt : ℚ)
    (hset : t.ArePointsSet = true) (hmt : 0 < t.MoveTime) (hdt : 0 ≤ dt)
    (h0 : 0 ≤ t.alpha) (h1 : t.alpha ≤ 1) :
    (OnButtonActivated t).IsTriggered = true ∧
    (OnButtonDeactivated t).IsTriggered = false ∧
    (t.IsTriggered = true → t.alpha ≤ (TickComponent t dt).alpha) ∧
    (t.IsTriggered = true → t.alpha = 0 → dt = t.MoveTime →
      ownerLocation (TickComponent t dt) = t.EndPoint) ∧
    (t.IsTriggered = false → (TickComponent t dt).alpha ≤ t.alpha) := by
  have hrate : 0 ≤ dt / t.MoveTime := div_nonneg hdt (le_of_lt hmt)
  refine ⟨rfl, rfl, ?_, ?_, ?_⟩
  · intro htr
    rw [TickComponent, if_pos ⟨hset, hmt⟩, if_pos htr]
    exact le_min (by linarith) h1
  · intro htr ha hdt'
    have halpha : (TickComponent t dt).alpha = 1 := by
      rw [TickComponent, if_pos ⟨hset, hmt⟩, if_pos htr]
      simp only [ha, hdt', zero_add, div_self (ne_of_gt hmt), min_self]
    have hpts : (TickComponent t dt).StartPoint = t.StartPoint ∧
        (TickComponent t dt).EndPoint = t.EndPoint := by
      rw [TickComponent, if_pos ⟨hset, hmt⟩, if_pos htr]
      exact ⟨rfl, rfl⟩
    refine Vec3.eq_of ?_ ?_ ?_ <;>
      simp only [ownerLocation, halpha, hpts.1, hpts.2] <;> ring
  · intro htr
    rw [TickComponent, if_pos ⟨hset, hmt⟩, if_neg (by simp [htr])]
    exact max_le (by linarith) h0

/-- Witness for C1: a transporter from the origin to (10,0,0) over 2 seconds,
triggered at the start, reaches EndPoint after a 2-second tick. -/
theorem C1_Transporter_moves_between_points_witness :
    ownerLocation (TickComponent ⟨⟨0, 0, 0⟩, ⟨10, 0, 0⟩, true, 2, true, 0⟩ 2) = ⟨10, 0, 0⟩ :=
  (C1_Transporter_moves_between_points ⟨⟨0, 0, 0⟩, ⟨10, 0, 0⟩, true, 2, true, 0⟩ 2
      rfl (by norm_num) (by norm_num) (by norm_num) (by norm_num)).2.2.2.1 rfl rfl rfl

end ThePathOfOsu
